import Mathlib

/-!
Shallow embedding of the DAOpensource governance core (`src/governance.rs` and
`src/reentrancy.rs`) and proofs about its proposal state machine.

Modelling conventions:
- Scrypto `Decimal` is a signed fixed-point number with 18 decimal places; we
  model it as `Int`, interpreted as multiples of `10 ^ (-18)`, with the
  truncating fixed-point multiplication `dMul` (Rust signed division truncates
  toward zero, hence `Int.tdiv`).
- `Instant` is an `Int` of seconds; `add_minutes n` is `· + 60 * n`.
- Component and resource addresses, non-fungible local ids and opaque
  `ScryptoValue` arguments are modelled as `Nat`.
- `KeyValueStore` is an association list with `lookupK`/`insertK`/`removeK`.
- A panicking method (failed `assert!`, `unwrap` on a missing key, vault
  `take` exceeding the balance, out-of-bounds index) returns `none`: on the
  ledger the whole transaction rolls back, so `none` means "call failed, no
  state change".
- External collaborators are inputs: the staking oracle's vote power and the
  pool-unit multiplier `get_real_amount(1)` are parameters, and outbound
  method calls are recorded as trace events instead of being executed.
-/

namespace DAOgov

/-- Fixed-point scale of a Scrypto `Decimal`: `10 ^ 18`. -/
def decScale : Int := 10 ^ 18

/-- A Scrypto `Decimal`, as its raw fixed-point integer representation. -/
abbrev Decimal := Int

/-- Truncating fixed-point multiplication of two `Decimal`s, as Scrypto's
`Decimal * Decimal` (widened product divided by `10^18`, toward zero). -/
def dMul (a b : Decimal) : Decimal := Int.tdiv (a * b) decScale

/-- An `Instant`, in seconds. -/
abbrev Instant := Int

/-- `Instant::add_minutes` (overflow of the underlying `i64` is out of scope). -/
def addMinutes (t : Instant) (n : Int) : Instant := t + 60 * n

/-- Rust `i64 as usize` on a 64-bit target: two's-complement reinterpretation. -/
def asUsize (i : Int) : Nat := (i % (2 : Int) ^ 64).toNat

/-- Component / resource addresses, modelled as natural numbers. -/
abbrev Addr := Nat

/-- Non-fungible local ids (voter identities, receipt ids), modelled as `Nat`. -/
abbrev NFId := Nat

/-- `KeyValueStore` lookup (`get`). -/
def lookupK {α : Type} : List (Nat × α) → Nat → Option α
  | [], _ => none
  | (k, v) :: rest, key => if k = key then some v else lookupK rest key

/-- `KeyValueStore` insert: overwrites the entry when the key is present. -/
def insertK {α : Type} : List (Nat × α) → Nat → α → List (Nat × α)
  | [], k, v => [(k, v)]
  | (k0, v0) :: rest, k, v =>
      if k0 = k then (k, v) :: rest else (k0, v0) :: insertK rest k v

/-- `KeyValueStore` remove. -/
def removeK {α : Type} : List (Nat × α) → Nat → List (Nat × α)
  | [], _ => []
  | (k0, v0) :: rest, k => if k0 = k then rest else (k0, v0) :: removeK rest k

/-- `ProposalStatus` enum of `governance.rs`. -/
inductive ProposalStatus
  | Building
  | Ongoing
  | VetoMode
  | Rejected
  | Accepted
  | Executed
  | Finished
deriving DecidableEq

/-- `ProposalStep` of `governance.rs`; `args` is an opaque `ScryptoValue`. -/
structure ProposalStep where
  component : Addr
  badge : Addr
  method : String
  args : Nat
  return_bucket : Bool
  reentrancy : Bool
deriving DecidableEq

/-- `Proposal` of `governance.rs` (title, description and files are
descriptive only and omitted; `votes` maps a voter id to its signed power). -/
structure Proposal where
  steps : List ProposalStep
  votes_for : Decimal
  votes_against : Decimal
  votes : List (NFId × Decimal)
  deadline : Instant
  has_failed_in_last_day : Option Bool
  next_index : Int
  status : ProposalStatus
  reentrancy : Bool
deriving DecidableEq

/-- `ProposalReceipt` non-fungible data of `governance.rs`. -/
structure ProposalReceipt where
  fee_paid : Decimal
  proposal_id : Nat
  status : ProposalStatus
deriving DecidableEq

/-- `GovernanceParameters` of `governance.rs`. -/
structure GovernanceParameters where
  fee : Decimal
  proposal_duration : Int
  quorum : Decimal
  approval_threshold : Decimal
  maximum_proposal_submit_delay : Int
deriving DecidableEq

/-- The Governance component state that the proposal protocol touches:
`proposals` and the receipt data keyed by proposal id, the fee vault balance,
the mother-token balance of the `vaults` KVS (`treasury`, where `put_tokens`
deposits refunded fees), the proposal counter and the component's address. -/
structure GovState where
  parameters : GovernanceParameters
  proposals : List (Nat × Proposal)
  receipts : List (Nat × ProposalReceipt)
  proposal_fee_vault : Decimal
  treasury : Decimal
  proposal_counter : Nat
  component_address : Addr
deriving DecidableEq

/-- `Vault::take`: fails (panics) if the vault holds less than the requested
amount; a negative amount is also rejected. Returns the new balance. -/
def vaultTake (balance amount : Decimal) : Option Decimal :=
  if 0 ≤ amount ∧ amount ≤ balance then some (balance - amount) else none

/-- `create_proposal` (`governance.rs`): bonds the configured fee out of the
payment, stores a fresh `Building` proposal whose deadline is
`now + maximum_proposal_submit_delay` minutes, mints the receipt, and returns
the new state, the new proposal id and the change. -/
def create_proposal (now : Instant) (st : GovState) (firstStep : ProposalStep)
    (payment : Decimal) : Option (GovState × Nat × Decimal) :=
  if st.parameters.fee ≤ payment then
    let proposal : Proposal :=
      { steps := [firstStep]
        votes_for := 0
        votes_against := 0
        votes := []
        deadline := addMinutes now st.parameters.maximum_proposal_submit_delay
        has_failed_in_last_day := none
        next_index := 0
        status := ProposalStatus.Building
        reentrancy := false }
    let receipt : ProposalReceipt :=
      { fee_paid := st.parameters.fee
        proposal_id := st.proposal_counter
        status := ProposalStatus.Building }
    some ({ st with
              proposal_fee_vault := st.proposal_fee_vault + st.parameters.fee
              proposals := insertK st.proposals st.proposal_counter proposal
              receipts := insertK st.receipts st.proposal_counter receipt
              proposal_counter := st.proposal_counter + 1 },
          st.proposal_counter, payment - st.parameters.fee)
  else none

/-- `add_proposal_step` (`governance.rs`): requires the receipt's status to be
`Building` and appends the step to the proposal. -/
def add_proposal_step (st : GovState) (pid : Nat) (step : ProposalStep) :
    Option GovState := do
  let receipt ← lookupK st.receipts pid
  if receipt.status = ProposalStatus.Building then do
    let p ← lookupK st.proposals pid
    some { st with proposals := insertK st.proposals pid
                     { p with steps := p.steps ++ [step] } }
  else none

/-- `submit_proposal` (`governance.rs`): requires the receipt's status to be
`Building`. If `now` is strictly past the stored submission deadline, the
bonded fee is refunded to the treasury and proposal and receipt become
`Rejected`; otherwise both become `Ongoing` and the voting deadline is reset
to `now + proposal_duration` minutes. -/
def submit_proposal (now : Instant) (st : GovState) (pid : Nat) :
    Option GovState := do
  let receipt ← lookupK st.receipts pid
  if receipt.status = ProposalStatus.Building then do
    let p ← lookupK st.proposals pid
    if now > p.deadline then do
      let newVault ← vaultTake st.proposal_fee_vault receipt.fee_paid
      some { st with
               proposal_fee_vault := newVault
               treasury := st.treasury + receipt.fee_paid
               proposals := insertK st.proposals pid
                 { p with status := ProposalStatus.Rejected }
               receipts := insertK st.receipts pid
                 { receipt with status := ProposalStatus.Rejected } }
    else
      some { st with
               proposals := insertK st.proposals pid
                 { p with
                     status := ProposalStatus.Ongoing
                     deadline := addMinutes now st.parameters.proposal_duration }
               receipts := insertK st.receipts pid
                 { receipt with status := ProposalStatus.Ongoing } }
  else none

/-- The memoized last-day evaluation block of `vote_on_proposal`
(`governance.rs`): on the first vote at or after `deadline - 1 minute` of a
still-`Ongoing` proposal whose flag is unset, mark the proposal not-failing
when `votes_for > approval_threshold * (votes_for + votes_against)` holds
strictly; otherwise engage `VetoMode` and push the deadline one minute. -/
def lastDayEval (params : GovernanceParameters) (now : Instant) (p0 : Proposal) :
    Proposal :=
  if now ≥ addMinutes p0.deadline (-1) ∧ p0.has_failed_in_last_day = none ∧
      p0.status = ProposalStatus.Ongoing then
    if p0.votes_for >
        dMul params.approval_threshold (p0.votes_for + p0.votes_against) then
      { p0 with has_failed_in_last_day := some false }
    else
      { p0 with
          has_failed_in_last_day := some true
          status := ProposalStatus.VetoMode
          deadline := addMinutes p0.deadline 1 }
  else p0

/-- The vote-recording block of `vote_on_proposal`: stores the signed power
under the voter id and bumps the matching tally. -/
def recordVote (votePower : Decimal) (forAgainst : Bool) (voterId : NFId)
    (p1 : Proposal) : Proposal :=
  if forAgainst then
    { p1 with
        votes := (voterId, votePower) :: p1.votes
        votes_for := p1.votes_for + votePower }
  else
    { p1 with
        votes := (voterId, -votePower) :: p1.votes
        votes_against := p1.votes_against + votePower }

/-- The veto re-evaluation block of `vote_on_proposal`: when the last-day
flag is set, the proposal is still `Ongoing` and the updated tally is failing
(`votes_for ≤ approval_threshold * (votes_for + votes_against)`), engage
`VetoMode` and push the deadline one minute. -/
def reEvalVeto (params : GovernanceParameters) (p2 : Proposal) : Proposal :=
  if p2.has_failed_in_last_day.isSome ∧ p2.status = ProposalStatus.Ongoing ∧
      p2.votes_for ≤
        dMul params.approval_threshold (p2.votes_for + p2.votes_against) then
    { p2 with
        has_failed_in_last_day := some true
        deadline := addMinutes p2.deadline 1
        status := ProposalStatus.VetoMode }
  else p2

/-- `vote_on_proposal` (`governance.rs`). `votePower` is the value returned by
the staking oracle's `vote` call for this voter. Mirrors the source order:
status check; veto-mode "for"-vote rejection; memoized last-day evaluation;
double-vote check; deadline check; vote recording; veto re-evaluation. -/
def vote_on_proposal (now : Instant) (votePower : Decimal) (st : GovState)
    (pid : Nat) (forAgainst : Bool) (voterId : NFId) : Option GovState := do
  let p0 ← lookupK st.proposals pid
  if p0.status = ProposalStatus.Ongoing ∨ p0.status = ProposalStatus.VetoMode then
    if p0.status = ProposalStatus.VetoMode ∧ now ≥ addMinutes p0.deadline (-1) ∧
        forAgainst = true then none
    else
      let p1 := lastDayEval st.parameters now p0
      if (lookupK p1.votes voterId).isSome then none
      else if now ≥ p1.deadline then none
      else
        let p3 := reEvalVeto st.parameters (recordVote votePower forAgainst voterId p1)
        some { st with proposals := insertK st.proposals pid p3 }
  else none

/-- `finish_voting` (`governance.rs`). `mult` is the staking oracle's
`get_real_amount(1)` pool-unit multiplier. Requires `now ≥ deadline` and
status `Ongoing` or `VetoMode`; accepts iff the real-valued tally passes the
approval threshold strictly and meets the quorum, otherwise rejects and
refunds the bonded fee to the treasury. The receipt mirrors the status. -/
def finish_voting (now : Instant) (mult : Decimal) (st : GovState) (pid : Nat) :
    Option GovState := do
  let p ← lookupK st.proposals pid
  if now ≥ p.deadline then
    if p.status = ProposalStatus.Ongoing ∨ p.status = ProposalStatus.VetoMode then
      let votes_for := dMul p.votes_for mult
      let votes_against := dMul p.votes_against mult
      let total_votes := votes_against + votes_for
      if votes_for > dMul st.parameters.approval_threshold total_votes ∧
          total_votes ≥ st.parameters.quorum then do
        let r ← lookupK st.receipts pid
        some { st with
                 proposals := insertK st.proposals pid
                   { p with status := ProposalStatus.Accepted }
                 receipts := insertK st.receipts pid
                   { r with status := ProposalStatus.Accepted } }
      else do
        let r ← lookupK st.receipts pid
        let newVault ← vaultTake st.proposal_fee_vault r.fee_paid
        some { st with
                 proposals := insertK st.proposals pid
                   { p with status := ProposalStatus.Rejected }
                 receipts := insertK st.receipts pid
                   { r with status := ProposalStatus.Rejected }
                 proposal_fee_vault := newVault
                 treasury := st.treasury + r.fee_paid }
    else none
  else none

/-- An outbound call made while executing proposal steps: either a direct
authorized dispatch of a step, or a step deferred to the Reentrancy Proxy
(`send_step`). -/
inductive ExtCall
  | dispatch (component : Addr) (method : String) (args : Nat)
  | deferred (pid : Nat) (component : Addr) (method : String) (args : Nat)
deriving DecidableEq

/-- The `for _ in 0..steps_to_execute` loop body of `execute_proposal_step`:
reads `steps[next_index as usize]` (out of bounds panics), defers a step that
targets the governance component or is reentrancy-flagged (stopping with the
index unchanged), otherwise dispatches it and advances, stopping when the
index reaches `steps.len()`. Returns the new index, whether a deferral
happened, and the calls made. -/
def execLoop (selfAddr : Addr) (steps : List ProposalStep) (pid : Nat) :
    Nat → Int → Option (Int × Bool × List ExtCall)
  | 0, idx => some (idx, false, [])
  | fuel + 1, idx =>
    match steps[asUsize idx]? with
    | none => none
    | some step =>
      if step.component = selfAddr ∨ step.reentrancy = true then
        some (idx, true, [ExtCall.deferred pid step.component step.method step.args])
      else
        let idx' := idx + 1
        if asUsize idx' = steps.length then
          some (idx', false, [ExtCall.dispatch step.component step.method step.args])
        else
          match execLoop selfAddr steps pid fuel idx' with
          | none => none
          | some (i, r, calls) =>
              some (i, r, ExtCall.dispatch step.component step.method step.args :: calls)

/-- `execute_proposal_step` (`governance.rs`): requires status `Accepted` and
`reentrancy = false`; runs the step loop; on a deferral sets `reentrancy`;
otherwise, if the cursor reached `steps.len()`, sets status `Executed` and
mirrors it onto the receipt. Also returns the outbound calls made. -/
def execute_proposal_step (st : GovState) (pid : Nat) (steps_to_execute : Int) :
    Option (GovState × List ExtCall) := do
  let p ← lookupK st.proposals pid
  if p.status = ProposalStatus.Accepted then
    if p.reentrancy = false then do
      let (idx', reent, calls) ←
        execLoop st.component_address p.steps pid steps_to_execute.toNat p.next_index
      if reent = true then
        let pReent := { p with next_index := idx', reentrancy := true }
        some ({ st with proposals := insertK st.proposals pid pReent }, calls)
      else if asUsize idx' = p.steps.length then do
        let r ← lookupK st.receipts pid
        let pDone := { p with next_index := idx', status := ProposalStatus.Executed }
        let rDone := { r with status := ProposalStatus.Executed }
        some ({ st with
                  proposals := insertK st.proposals pid pDone
                  receipts := insertK st.receipts pid rDone }, calls)
      else
        let pStep := { p with next_index := idx' }
        some ({ st with proposals := insertK st.proposals pid pStep }, calls)
    else none
  else none

/-- `finish_reentrancy_step` (`governance.rs`): clears the `reentrancy` flag,
increments `next_index`, and when the cursor reaches `steps.len()` sets status
`Executed` and mirrors it onto the receipt. No other precondition. -/
def finish_reentrancy_step (st : GovState) (pid : Nat) : Option GovState := do
  let p ← lookupK st.proposals pid
  let p' := { p with reentrancy := false, next_index := p.next_index + 1 }
  if asUsize p'.next_index = p'.steps.length then do
    let r ← lookupK st.receipts pid
    some { st with
             proposals := insertK st.proposals pid
               { p' with status := ProposalStatus.Executed }
             receipts := insertK st.receipts pid
               { r with status := ProposalStatus.Executed } }
  else
    some { st with proposals := insertK st.proposals pid p' }

/-- `retrieve_fee` (`governance.rs`): requires the receipt's status to be
`Executed`; sets the receipt's status to `Finished` and pays `fee_paid` out of
the fee vault to the receipt holder (returned as the second component). -/
def retrieve_fee (st : GovState) (pid : Nat) : Option (GovState × Decimal) := do
  let receipt ← lookupK st.receipts pid
  if receipt.status = ProposalStatus.Executed then do
    let newVault ← vaultTake st.proposal_fee_vault receipt.fee_paid
    some ({ st with
              receipts := insertK st.receipts pid
                { receipt with status := ProposalStatus.Finished }
              proposal_fee_vault := newVault }, receipt.fee_paid)
  else none

/-- `hurry_proposal` (`governance.rs`): owner-only; requires status `Ongoing`,
a positive new duration, and that the new deadline does not extend the old. -/
def hurry_proposal (now : Instant) (st : GovState) (pid : Nat)
    (new_duration : Int) : Option GovState := do
  let p ← lookupK st.proposals pid
  let new_deadline := addMinutes now new_duration
  if p.status = ProposalStatus.Ongoing then
    if new_deadline ≤ p.deadline then
      if new_duration > 0 then
        let pHurried := { p with deadline := new_deadline }
        some { st with proposals := insertK st.proposals pid pHurried }
      else none
    else none
  else none

/-- The Reentrancy Proxy state (`reentrancy.rs`): pending deferred calls
keyed by proposal id, each a `(args, component, method)` triple. -/
structure ReentrancyProxy where
  reentrancies : List (Nat × (Nat × Addr × String))
deriving DecidableEq

/-- `ReentrancyProxy::send_step`: stores the deferred call under the id. -/
def ReentrancyProxy.send_step (proxy : ReentrancyProxy) (pid : Nat)
    (component : Addr) (method : String) (args : Nat) : ReentrancyProxy :=
  { proxy with reentrancies := insertK proxy.reentrancies pid (args, component, method) }

/-- An outbound call made by the Reentrancy Proxy: the badge-authorized
dispatch of the stored call, or the raw completion call carrying the id. -/
inductive ProxyCall
  | invoke (component : Addr) (method : String) (args : Nat)
  | invokeRaw (component : Addr) (method : String) (pidArg : Nat)
deriving DecidableEq

/-- `ReentrancyProxy::call` (`reentrancy.rs`): looks up the stored call
(panics if absent), dispatches it with badge authorization, removes the entry,
then invokes `finish_reentrancy_step` — on the *stored component address*. -/
def ReentrancyProxy.call (proxy : ReentrancyProxy) (pid : Nat) :
    Option (ReentrancyProxy × List ProxyCall) := do
  let (args, component, method) ← lookupK proxy.reentrancies pid
  some ({ proxy with reentrancies := removeK proxy.reentrancies pid },
        [ProxyCall.invoke component method args,
         ProxyCall.invokeRaw component "finish_reentrancy_step" pid])

/-- The public operations of the Governance component that act on an already
existing proposal, as a single sum type (used to quantify over "any
operation"). The staking oracle's outputs are carried as parameters. -/
inductive GovOp
  | vote (now : Instant) (votePower : Decimal) (pid : Nat) (forAgainst : Bool)
      (voterId : NFId)
  | submit (now : Instant) (pid : Nat)
  | finishVoting (now : Instant) (mult : Decimal) (pid : Nat)
  | execStep (pid : Nat) (steps_to_execute : Int)
  | finishReentrancy (pid : Nat)
  | retrieveFee (pid : Nat)
  | hurry (now : Instant) (pid : Nat) (new_duration : Int)
  | addStep (pid : Nat) (step : ProposalStep)
deriving DecidableEq

/-- Interpretation of a `GovOp` as a state transformer (discarding returned
buckets and outbound call traces). -/
def GovOp.apply : GovOp → GovState → Option GovState
  | GovOp.vote now vp pid fa id, st => vote_on_proposal now vp st pid fa id
  | GovOp.submit now pid, st => submit_proposal now st pid
  | GovOp.finishVoting now mult pid, st => finish_voting now mult st pid
  | GovOp.execStep pid n, st => (execute_proposal_step st pid n).map Prod.fst
  | GovOp.finishReentrancy pid, st => finish_reentrancy_step st pid
  | GovOp.retrieveFee pid, st => (retrieve_fee st pid).map Prod.fst
  | GovOp.hurry now pid d, st => hurry_proposal now st pid d
  | GovOp.addStep pid step, st => add_proposal_step st pid step

/-! ### Concrete sample data

Used by the witness and counterexample theorems. `sampleParams` is the
parameter set installed by `instantiate_governance` (fee 10000, duration 3
minutes, quorum 10000, approval threshold 0.5, submit delay 7 minutes). -/

/-- The default `GovernanceParameters` from `instantiate_governance`. -/
def sampleParams : GovernanceParameters :=
  { fee := 10000 * decScale
    proposal_duration := 3
    quorum := 10000 * decScale
    approval_threshold := 5 * 10 ^ 17
    maximum_proposal_submit_delay := 7 }

/-- A plain proposal step targeting an external component (address 2),
neither self-referential nor reentrancy-flagged. -/
def sampleStep : ProposalStep :=
  { component := 2, badge := 3, method := "external_method", args := 0,
    return_bucket := false, reentrancy := false }

/-- A proposal in `VetoMode` after its last-day evaluation flagged it failing:
deadline 1000, 10 pool units against, none in favor. -/
def pVetoSample : Proposal :=
  { steps := [sampleStep], votes_for := 0, votes_against := 10 * decScale,
    votes := [], deadline := 1000, has_failed_in_last_day := some true,
    next_index := 0, status := ProposalStatus.VetoMode, reentrancy := false }

/-- Governance state holding `pVetoSample` as proposal 0. -/
def stVetoSample : GovState :=
  { parameters := sampleParams, proposals := [(0, pVetoSample)], receipts := [],
    proposal_fee_vault := 0, treasury := 0, proposal_counter := 1,
    component_address := 1 }

/-- The receipt of a submitted sample proposal (fee 10000 bonded). -/
def rOngSample : ProposalReceipt :=
  { fee_paid := 10000 * decScale, proposal_id := 0,
    status := ProposalStatus.Ongoing }

/-- An `Ongoing` proposal with a single 5-pool-unit vote in favor (well below
the quorum of 10000). -/
def pOngSample : Proposal :=
  { steps := [sampleStep], votes_for := 5 * decScale, votes_against := 0,
    votes := [(7, 5 * decScale)], deadline := 1000,
    has_failed_in_last_day := none, next_index := 0,
    status := ProposalStatus.Ongoing, reentrancy := false }

/-- Governance state holding `pOngSample` as proposal 0, fee bonded. -/
def stOngSample : GovState :=
  { parameters := sampleParams, proposals := [(0, pOngSample)],
    receipts := [(0, rOngSample)], proposal_fee_vault := 10000 * decScale,
    treasury := 0, proposal_counter := 1, component_address := 1 }

/-- An `Accepted` two-step proposal with the cursor at the start. -/
def pAccSample : Proposal :=
  { steps := [sampleStep, sampleStep], votes_for := 20000 * decScale,
    votes_against := 0, votes := [], deadline := 1000,
    has_failed_in_last_day := none, next_index := 0,
    status := ProposalStatus.Accepted, reentrancy := false }

/-- The receipt matching an accepted sample proposal. -/
def rAccSample : ProposalReceipt :=
  { fee_paid := 10000 * decScale, proposal_id := 0,
    status := ProposalStatus.Accepted }

/-- Governance state holding `pAccSample` as proposal 0. -/
def stAccSample : GovState :=
  { parameters := sampleParams, proposals := [(0, pAccSample)],
    receipts := [(0, rAccSample)], proposal_fee_vault := 10000 * decScale,
    treasury := 0, proposal_counter := 1, component_address := 1 }

/-- An `Accepted` proposal with a deferred call pending (`reentrancy = true`),
its cursor past the first of two steps. -/
def pPendingSample : Proposal :=
  { steps := [sampleStep, sampleStep], votes_for := 20000 * decScale,
    votes_against := 0, votes := [], deadline := 1000,
    has_failed_in_last_day := none, next_index := 1,
    status := ProposalStatus.Accepted, reentrancy := true }

/-- Governance state holding `pPendingSample` as proposal 0. -/
def stPendingSample : GovState :=
  { parameters := sampleParams, proposals := [(0, pPendingSample)],
    receipts := [(0, rAccSample)], proposal_fee_vault := 10000 * decScale,
    treasury := 0, proposal_counter := 1, component_address := 1 }

/-- An `Executed` single-step proposal. -/
def pExecSample : Proposal :=
  { steps := [sampleStep], votes_for := 20000 * decScale, votes_against := 0,
    votes := [], deadline := 1000, has_failed_in_last_day := none,
    next_index := 1, status := ProposalStatus.Executed, reentrancy := false }

/-- The receipt of an executed sample proposal. -/
def rExecSample : ProposalReceipt :=
  { fee_paid := 10000 * decScale, proposal_id := 0,
    status := ProposalStatus.Executed }

/-- Governance state holding `pExecSample` as proposal 0. -/
def stExecSample : GovState :=
  { parameters := sampleParams, proposals := [(0, pExecSample)],
    receipts := [(0, rExecSample)], proposal_fee_vault := 10000 * decScale,
    treasury := 0, proposal_counter := 1, component_address := 1 }

/-- A Reentrancy Proxy holding one deferred call for proposal 0 whose target
(component 5) is not the governance component (address 1 in the samples). -/
def proxySample : ReentrancyProxy :=
  { reentrancies := [(0, (7, 5, "external_method"))] }

/-- A `Rejected` sample proposal (same shape as `pVetoSample`). -/
def pRejSample : Proposal :=
  { pVetoSample with status := ProposalStatus.Rejected }

/-- Governance state holding `pRejSample` as proposal 0. -/
def stRejSample : GovState :=
  { parameters := sampleParams, proposals := [(0, pRejSample)],
    receipts := [(0, rOngSample)], proposal_fee_vault := 0, treasury := 0,
    proposal_counter := 1, component_address := 1 }

/-- A fresh governance state with no proposals yet. -/
def stBaseSample : GovState :=
  { parameters := sampleParams, proposals := [], receipts := [],
    proposal_fee_vault := 0, treasury := 0, proposal_counter := 0,
    component_address := 1 }

/-- The proposal created by `create_proposal` at time 100 from
`stBaseSample`: `Building`, submission deadline `100 + 7 minutes = 520`. -/
def pBuildingSample : Proposal :=
  { steps := [sampleStep], votes_for := 0, votes_against := 0, votes := [],
    deadline := 520, has_failed_in_last_day := none, next_index := 0,
    status := ProposalStatus.Building, reentrancy := false }

/-- The receipt minted with `pBuildingSample`. -/
def rBuildingSample : ProposalReceipt :=
  { fee_paid := 10000 * decScale, proposal_id := 0,
    status := ProposalStatus.Building }

/-- The state after `create_proposal` at time 100 from `stBaseSample`. -/
def stAfterCreateSample : GovState :=
  { parameters := sampleParams, proposals := [(0, pBuildingSample)],
    receipts := [(0, rBuildingSample)],
    proposal_fee_vault := 10000 * decScale, treasury := 0,
    proposal_counter := 1, component_address := 1 }

/-- An `Ongoing` proposal in its last minute, flag unset, currently failing
(no votes in favor, ten pool units against), used for the last-day witness. -/
def pLastDaySample : Proposal :=
  { steps := [sampleStep], votes_for := 0, votes_against := 10 * decScale,
    votes := [], deadline := 1000, has_failed_in_last_day := none,
    next_index := 0, status := ProposalStatus.Ongoing, reentrancy := false }

/-- Governance state holding `pLastDaySample` as proposal 0. -/
def stLastDaySample : GovState :=
  { parameters := sampleParams, proposals := [(0, pLastDaySample)],
    receipts := [(0, rOngSample)], proposal_fee_vault := 10000 * decScale,
    treasury := 0, proposal_counter := 1, component_address := 1 }

/-- An `Ongoing` proposal whose last-day evaluation ran and marked it passing
(`has_failed_in_last_day = some false`), with 10 units in favor. -/
def pFlaggedSample : Proposal :=
  { steps := [sampleStep], votes_for := 10 * decScale, votes_against := 0,
    votes := [], deadline := 1000, has_failed_in_last_day := some false,
    next_index := 0, status := ProposalStatus.Ongoing, reentrancy := false }

/-- Governance state holding `pFlaggedSample` as proposal 0. -/
def stFlaggedSample : GovState :=
  { parameters := sampleParams, proposals := [(0, pFlaggedSample)],
    receipts := [(0, rOngSample)], proposal_fee_vault := 10000 * decScale,
    treasury := 0, proposal_counter := 1, component_address := 1 }

/-- `pFlaggedSample` after an against-vote of 20 pool units by voter 1 at
time 950: the tally flips to failing, `VetoMode` engages, deadline 1060. -/
def pFlaggedAfterSample : Proposal :=
  { steps := [sampleStep], votes_for := 10 * decScale,
    votes_against := 20 * decScale, votes := [(1, -(20 * decScale))],
    deadline := 1060, has_failed_in_last_day := some true, next_index := 0,
    status := ProposalStatus.VetoMode, reentrancy := false }

/-- `stFlaggedSample` after that same vote. -/
def stFlaggedAfterSample : GovState :=
  { parameters := sampleParams, proposals := [(0, pFlaggedAfterSample)],
    receipts := [(0, rOngSample)], proposal_fee_vault := 10000 * decScale,
    treasury := 0, proposal_counter := 1, component_address := 1 }

/-! ### Association-list lemmas -/

theorem lookupK_insertK_self {α : Type} (l : List (Nat × α)) (k : Nat) (v : α) :
    lookupK (insertK l k v) k = some v := by
  induction l with
  | nil => simp [insertK, lookupK]
  | cons hd tl ih =>
      obtain ⟨k0, v0⟩ := hd
      by_cases hk : k0 = k <;> simp [insertK, lookupK, hk, ih]

theorem lookupK_insertK_ne {α : Type} (l : List (Nat × α)) (k k' : Nat) (v : α)
    (h : k' ≠ k) : lookupK (insertK l k v) k' = lookupK l k' := by
  induction l with
  | nil => simp [insertK, lookupK, Ne.symm h]
  | cons hd tl ih =>
      obtain ⟨k0, v0⟩ := hd
      by_cases hk : k0 = k
      · subst hk
        simp [insertK, lookupK, Ne.symm h]
      · simp [insertK, lookupK, hk, ih]

theorem lookupK_insertK_cases {α : Type} (l : List (Nat × α)) (k0 k : Nat)
    (v w : α) (h : lookupK (insertK l k0 v) k = some w) :
    (k = k0 ∧ w = v) ∨ (k ≠ k0 ∧ lookupK l k = some w) := by
  by_cases hk : k = k0
  · subst hk
    rw [lookupK_insertK_self] at h
    exact Or.inl ⟨rfl, (Option.some.inj h).symm⟩
  · exact Or.inr ⟨hk, by rwa [lookupK_insertK_ne _ _ _ _ hk] at h⟩

theorem lookupK_isSome_of_mem {α : Type} (l : List (Nat × α)) (k : Nat)
    (h : k ∈ l.map Prod.fst) : (lookupK l k).isSome = true := by
  induction l with
  | nil => simp at h
  | cons hd tl ih =>
      obtain ⟨k0, v0⟩ := hd
      by_cases hk : k0 = k
      · simp [lookupK, hk]
      · simp only [List.map_cons, List.mem_cons] at h
        rcases h with h | h
        · exact absurd h.symm hk
        · simp [lookupK, hk, ih h]

/-! ### Projection lemmas for the vote stages -/

theorem lastDayEval_votes (params : GovernanceParameters) (now : Instant)
    (p : Proposal) : (lastDayEval params now p).votes = p.votes := by
  unfold lastDayEval
  split
  · split <;> rfl
  · rfl

theorem lastDayEval_reentrancy (params : GovernanceParameters) (now : Instant)
    (p : Proposal) : (lastDayEval params now p).reentrancy = p.reentrancy := by
  unfold lastDayEval
  split
  · split <;> rfl
  · rfl

theorem lastDayEval_next_index (params : GovernanceParameters) (now : Instant)
    (p : Proposal) : (lastDayEval params now p).next_index = p.next_index := by
  unfold lastDayEval
  split
  · split <;> rfl
  · rfl

theorem lastDayEval_tallies (params : GovernanceParameters) (now : Instant)
    (p : Proposal) : (lastDayEval params now p).votes_for = p.votes_for ∧
      (lastDayEval params now p).votes_against = p.votes_against := by
  unfold lastDayEval
  split
  · split <;> exact ⟨rfl, rfl⟩
  · exact ⟨rfl, rfl⟩

theorem lastDayEval_deadline_ge (params : GovernanceParameters) (now : Instant)
    (p : Proposal) : p.deadline ≤ (lastDayEval params now p).deadline := by
  unfold lastDayEval addMinutes
  split
  · split
    · simp
    · simp
  · simp

theorem recordVote_preserved (votePower : Decimal) (forAgainst : Bool)
    (voterId : NFId) (p : Proposal) :
    (recordVote votePower forAgainst voterId p).deadline = p.deadline ∧
    (recordVote votePower forAgainst voterId p).status = p.status ∧
    (recordVote votePower forAgainst voterId p).has_failed_in_last_day =
      p.has_failed_in_last_day ∧
    (recordVote votePower forAgainst voterId p).reentrancy = p.reentrancy ∧
    (recordVote votePower forAgainst voterId p).next_index = p.next_index := by
  unfold recordVote
  split <;> exact ⟨rfl, rfl, rfl, rfl, rfl⟩

theorem recordVote_votes (votePower : Decimal) (forAgainst : Bool)
    (voterId : NFId) (p : Proposal) :
    (recordVote votePower forAgainst voterId p).votes =
      (voterId, if forAgainst then votePower else -votePower) :: p.votes := by
  unfold recordVote
  split <;> simp_all

theorem reEvalVeto_votes (params : GovernanceParameters) (p : Proposal) :
    (reEvalVeto params p).votes = p.votes := by
  unfold reEvalVeto
  split <;> rfl

theorem reEvalVeto_reentrancy (params : GovernanceParameters) (p : Proposal) :
    (reEvalVeto params p).reentrancy = p.reentrancy := by
  unfold reEvalVeto
  split <;> rfl

theorem reEvalVeto_next_index (params : GovernanceParameters) (p : Proposal) :
    (reEvalVeto params p).next_index = p.next_index := by
  unfold reEvalVeto
  split <;> rfl

theorem reEvalVeto_tallies (params : GovernanceParameters) (p : Proposal) :
    (reEvalVeto params p).votes_for = p.votes_for ∧
    (reEvalVeto params p).votes_against = p.votes_against := by
  unfold reEvalVeto
  split <;> exact ⟨rfl, rfl⟩

theorem reEvalVeto_deadline_ge (params : GovernanceParameters) (p : Proposal) :
    p.deadline ≤ (reEvalVeto params p).deadline := by
  unfold reEvalVeto addMinutes
  split
  · simp
  · simp

/-! ### Inversion of `vote_on_proposal` -/

theorem vote_on_proposal_some_iff (now : Instant) (votePower : Decimal)
    (st : GovState) (pid : Nat) (forAgainst : Bool) (voterId : NFId)
    (p : Proposal) (st' : GovState)
    (hp : lookupK st.proposals pid = some p) :
    vote_on_proposal now votePower st pid forAgainst voterId = some st' ↔
      ((p.status = ProposalStatus.Ongoing ∨ p.status = ProposalStatus.VetoMode) ∧
       ¬(p.status = ProposalStatus.VetoMode ∧ now ≥ addMinutes p.deadline (-1) ∧
         forAgainst = true) ∧
       (lookupK (lastDayEval st.parameters now p).votes voterId).isSome = false ∧
       ¬ now ≥ (lastDayEval st.parameters now p).deadline ∧
       st' = { st with proposals := insertK st.proposals pid
                           (reEvalVeto st.parameters
                             (recordVote votePower forAgainst voterId
                               (lastDayEval st.parameters now p))) }) := by
  simp only [vote_on_proposal, hp, bind, Option.bind]
  split_ifs with h1 h2 h3 h4
  · simp [h2]
  · simp [h3]
  · simp [h4]
  · constructor
    · intro h
      exact ⟨h1, h2, by simpa using h3, h4, (Option.some.inj h).symm⟩
    · rintro ⟨-, -, -, -, rfl⟩
      rfl
  · simp [h1]

/-! ### Characterization of `finish_reentrancy_step` -/

theorem finish_reentrancy_step_eq (st : GovState) (pid : Nat) (p : Proposal)
    (r : ProposalReceipt)
    (hp : lookupK st.proposals pid = some p)
    (hr : lookupK st.receipts pid = some r) :
    finish_reentrancy_step st pid = some (
      if asUsize (p.next_index + 1) = p.steps.length then
        { st with
            proposals := insertK st.proposals pid
              { p with reentrancy := false, next_index := p.next_index + 1,
                       status := ProposalStatus.Executed }
            receipts := insertK st.receipts pid
              { r with status := ProposalStatus.Executed } }
      else
        { st with proposals := insertK st.proposals pid
                    { p with reentrancy := false, next_index := p.next_index + 1 } }) := by
  simp only [finish_reentrancy_step, hp, hr, bind, Option.bind]
  split
  · simp_all
  · simp_all

theorem finish_reentrancy_step_fields (st : GovState) (pid : Nat) (p : Proposal)
    (r : ProposalReceipt)
    (hp : lookupK st.proposals pid = some p)
    (hr : lookupK st.receipts pid = some r) :
    ∃ st' p' r', finish_reentrancy_step st pid = some st' ∧
      lookupK st'.proposals pid = some p' ∧
      lookupK st'.receipts pid = some r' ∧
      p'.reentrancy = false ∧
      p'.next_index = p.next_index + 1 ∧
      p'.steps = p.steps ∧
      p'.status = (if asUsize (p.next_index + 1) = p.steps.length
                   then ProposalStatus.Executed else p.status) := by
  rw [finish_reentrancy_step_eq st pid p r hp hr]
  by_cases hc : asUsize (p.next_index + 1) = p.steps.length
  · rw [if_pos hc]
    exact ⟨_, _, _, rfl, lookupK_insertK_self _ _ _, lookupK_insertK_self _ _ _,
      rfl, rfl, rfl, by rw [if_pos hc]⟩
  · rw [if_neg hc]
    exact ⟨_, _, _, rfl, lookupK_insertK_self _ _ _, hr, rfl, rfl, rfl,
      by rw [if_neg hc]⟩

/-! ### The claims -/

/-- C10: `finish_reentrancy_step(id)` checks no precondition on the proposal's
state: for every existing proposal (with its receipt), in any status and
regardless of the `reentrancy` flag, the call succeeds, sets `reentrancy` to
`false`, increments `next_index` by exactly one, and sets the status to
`Executed` exactly when the new cursor equals `steps.len()`; a repeated
invocation keeps incrementing the cursor. Only the owner-only access
restriction (not modelled: it is an authorization rule, not program logic)
protects the cursor bound. -/
theorem finish_reentrancy_no_precondition (st : GovState) (pid : Nat)
    (p : Proposal) (r : ProposalReceipt)
    (hp : lookupK st.proposals pid = some p)
    (hr : lookupK st.receipts pid = some r) :
    ∃ st' p', finish_reentrancy_step st pid = some st' ∧
      lookupK st'.proposals pid = some p' ∧
      p'.reentrancy = false ∧
      p'.next_index = p.next_index + 1 ∧
      p'.status = (if asUsize (p.next_index + 1) = p.steps.length
                   then ProposalStatus.Executed else p.status) ∧
      ∃ st'' p'', finish_reentrancy_step st' pid = some st'' ∧
        lookupK st''.proposals pid = some p'' ∧
        p''.reentrancy = false ∧
        p''.next_index = p.next_index + 2 := by
  obtain ⟨st1, p1, r1, h1, hp1, hr1, hre1, hni1, hs1, hst1⟩ :=
    finish_reentrancy_step_fields st pid p r hp hr
  obtain ⟨st2, p2, r2, h2, hp2, hr2, hre2, hni2, hs2, hst2⟩ :=
    finish_reentrancy_step_fields st1 pid p1 r1 hp1 hr1
  exact ⟨st1, p1, h1, hp1, hre1, hni1, hst1, st2, p2, h2, hp2, hre2, by omega⟩

/-- C10 witness: on a concrete `Rejected`, non-pending proposal with two steps
and cursor 0, `finish_reentrancy_step` still succeeds and moves the cursor. -/
theorem finish_reentrancy_no_precondition_witness :
    ∃ st' p', finish_reentrancy_step stRejSample 0 = some st' ∧
      lookupK st'.proposals 0 = some p' ∧
      p'.reentrancy = false ∧
      p'.next_index = pRejSample.next_index + 1 ∧
      p'.status = (if asUsize (pRejSample.next_index + 1) = pRejSample.steps.length
                   then ProposalStatus.Executed else pRejSample.status) ∧
      ∃ st'' p'', finish_reentrancy_step st' 0 = some st'' ∧
        lookupK st''.proposals 0 = some p'' ∧
        p''.reentrancy = false ∧
        p''.next_index = pRejSample.next_index + 2 :=
  finish_reentrancy_no_precondition stRejSample 0 pRejSample rOngSample
    (by decide) (by decide)

/-- C3 (evaluation at the failing input): the Reentrancy Proxy's `call(id)`
dispatches the stored call and removes the entry, but its completion call
`finish_reentrancy_step(id)` is issued to the *stored call's target
component* (here address 5), not to the Governance component (address 1 in
the sample configuration) — contradicting both the claim and the source's
own doc comment ("Calls the governance component with the
`finish_reentrancy_step`"), so the Governance proposal's pending
`reentrancy` flag is never cleared when a reentrancy-flagged step targets a
foreign component. -/
theorem reentrancy_call_completion_target :
    ReentrancyProxy.call proxySample 0 =
      some ({ reentrancies := [] },
            [ProxyCall.invoke 5 "external_method" 7,
             ProxyCall.invokeRaw 5 "finish_reentrancy_step" 0]) ∧
    stVetoSample.component_address = 1 ∧
    (5 : Addr) ≠ stVetoSample.component_address := by
  refine ⟨?_, rfl, by decide⟩
  rfl

/-- C8 (counterexample): on a concrete `Executed` proposal, `retrieve_fee`
succeeds, pays out exactly the bonded fee and sets the *receipt's* status to
`Finished`, but the stored `Proposal` record's status remains `Executed` —
refuting the claim that the call "transitions the proposal from Executed to
its terminal Finished status". -/
theorem retrieve_fee_keeps_proposal_executed_cex :
    (retrieve_fee stExecSample 0).map (fun out =>
        ((lookupK out.1.proposals 0).map Proposal.status,
         (lookupK out.1.receipts 0).map ProposalReceipt.status,
         out.2)) =
      some (some ProposalStatus.Executed, some ProposalStatus.Finished,
            10000 * decScale) ∧
    ProposalStatus.Executed ≠ ProposalStatus.Finished := by
  constructor
  · rfl
  · decide

/-- C8 (amended): `retrieve_fee` succeeds only when the receipt's status is
`Executed`; on success it pays exactly the recorded `fee_paid` out of the fee
vault to the receipt holder and sets the *receipt's* status to the terminal
`Finished`; the stored `Proposal` record is left unchanged (its status field
stays `Executed`). -/
theorem retrieve_fee_spec (st : GovState) (pid : Nat) (r : ProposalReceipt)
    (hr : lookupK st.receipts pid = some r) :
    (∀ out, retrieve_fee st pid = some out →
      r.status = ProposalStatus.Executed ∧
      out.2 = r.fee_paid ∧
      out.1.proposals = st.proposals ∧
      lookupK out.1.receipts pid = some { r with status := ProposalStatus.Finished }) ∧
    (r.status = ProposalStatus.Executed → 0 ≤ r.fee_paid →
      r.fee_paid ≤ st.proposal_fee_vault →
      retrieve_fee st pid = some
        ({ st with
             receipts := insertK st.receipts pid
               { r with status := ProposalStatus.Finished }
             proposal_fee_vault := st.proposal_fee_vault - r.fee_paid },
         r.fee_paid)) := by
  constructor
  · intro out h
    by_cases h1 : r.status = ProposalStatus.Executed
    · by_cases h2 : 0 ≤ r.fee_paid ∧ r.fee_paid ≤ st.proposal_fee_vault
      · simp only [retrieve_fee, hr, bind, Option.bind, vaultTake, h1, h2,
          if_true, if_pos] at h
        obtain rfl := (Option.some.inj h).symm
        exact ⟨h1, rfl, rfl, lookupK_insertK_self _ _ _⟩
      · simp [retrieve_fee, hr, vaultTake, h1, h2] at h
    · simp [retrieve_fee, hr, h1] at h
  · intro h1 h2 h3
    simp [retrieve_fee, hr, vaultTake, h1, h2, h3]

/-- C8 (witness for the amended theorem), at the concrete `Executed` sample. -/
theorem retrieve_fee_spec_witness :
    (∀ out, retrieve_fee stExecSample 0 = some out →
      rExecSample.status = ProposalStatus.Executed ∧
      out.2 = rExecSample.fee_paid ∧
      out.1.proposals = stExecSample.proposals ∧
      lookupK out.1.receipts 0 =
        some { rExecSample with status := ProposalStatus.Finished }) ∧
    (rExecSample.status = ProposalStatus.Executed → 0 ≤ rExecSample.fee_paid →
      rExecSample.fee_paid ≤ stExecSample.proposal_fee_vault →
      retrieve_fee stExecSample 0 = some
        ({ stExecSample with
             receipts := insertK stExecSample.receipts 0
               { rExecSample with status := ProposalStatus.Finished }
             proposal_fee_vault :=
               stExecSample.proposal_fee_vault - rExecSample.fee_paid },
         rExecSample.fee_paid)) :=
  retrieve_fee_spec stExecSample 0 rExecSample (by decide)

/-- Characterization of `submit_proposal` on a `Building` receipt: past the
submission deadline the proposal is locked out (fee to treasury, both records
`Rejected`); otherwise both become `Ongoing` with the voting deadline reset. -/
theorem submit_proposal_eq (now : Instant) (st : GovState) (pid : Nat)
    (p : Proposal) (r : ProposalReceipt)
    (hr : lookupK st.receipts pid = some r)
    (hp : lookupK st.proposals pid = some p)
    (hb : r.status = ProposalStatus.Building)
    (hfee0 : 0 ≤ r.fee_paid) (hfee1 : r.fee_paid ≤ st.proposal_fee_vault) :
    submit_proposal now st pid = some (
      if now > p.deadline then
        { st with
            proposal_fee_vault := st.proposal_fee_vault - r.fee_paid
            treasury := st.treasury + r.fee_paid
            proposals := insertK st.proposals pid
              { p with status := ProposalStatus.Rejected }
            receipts := insertK st.receipts pid
              { r with status := ProposalStatus.Rejected } }
      else
        { st with
            proposals := insertK st.proposals pid
              { p with
                  status := ProposalStatus.Ongoing
                  deadline := addMinutes now st.parameters.proposal_duration }
            receipts := insertK st.receipts pid
              { r with status := ProposalStatus.Ongoing } }) := by
  simp only [submit_proposal, hr, hp, bind, Option.bind, vaultTake]
  rw [if_pos hb]
  split
  · rw [if_pos ⟨hfee0, hfee1⟩]
  · rfl

/-- C4: a proposal created at time `t0` is `Building` with submission
deadline `t0 + maximum_proposal_submit_delay` minutes; submitting it at `now`
either (a) when `now` is past that deadline, turns proposal and receipt
`Rejected` and refunds the bonded fee to the treasury (the proposer gets
nothing back), or (b) otherwise turns both `Ongoing` and resets the voting
deadline to `now + proposal_duration` minutes. -/
theorem submit_proposal_spec (t0 now : Instant) (st : GovState)
    (firstStep : ProposalStep) (payment : Decimal) (st1 : GovState) (pid : Nat)
    (change : Decimal)
    (hvault : 0 ≤ st.proposal_fee_vault) (hfee : 0 ≤ st.parameters.fee)
    (hc : create_proposal t0 st firstStep payment = some (st1, pid, change)) :
    ∃ p1 r1, lookupK st1.proposals pid = some p1 ∧
      lookupK st1.receipts pid = some r1 ∧
      p1.status = ProposalStatus.Building ∧
      r1.status = ProposalStatus.Building ∧
      r1.fee_paid = st.parameters.fee ∧
      p1.deadline = addMinutes t0 st.parameters.maximum_proposal_submit_delay ∧
      (now > p1.deadline →
        ∃ st2, submit_proposal now st1 pid = some st2 ∧
          (lookupK st2.proposals pid).map Proposal.status =
            some ProposalStatus.Rejected ∧
          (lookupK st2.receipts pid).map ProposalReceipt.status =
            some ProposalStatus.Rejected ∧
          st2.treasury = st1.treasury + r1.fee_paid ∧
          st2.proposal_fee_vault = st1.proposal_fee_vault - r1.fee_paid) ∧
      (¬ now > p1.deadline →
        ∃ st2 p2, submit_proposal now st1 pid = some st2 ∧
          lookupK st2.proposals pid = some p2 ∧
          p2.status = ProposalStatus.Ongoing ∧
          p2.deadline = addMinutes now st.parameters.proposal_duration ∧
          (lookupK st2.receipts pid).map ProposalReceipt.status =
            some ProposalStatus.Ongoing ∧
          st2.treasury = st1.treasury ∧
          st2.proposal_fee_vault = st1.proposal_fee_vault) := by
  simp only [create_proposal] at hc
  split_ifs at hc with hpay
  simp only [Option.some.injEq, Prod.mk.injEq] at hc
  obtain ⟨h1, h2, h3⟩ := hc
  subst h1 h2 h3
  refine ⟨_, _, lookupK_insertK_self _ _ _, lookupK_insertK_self _ _ _,
    rfl, rfl, rfl, rfl, ?_, ?_⟩
  · intro hlate
    rw [submit_proposal_eq now _ st.proposal_counter _ _
      (lookupK_insertK_self _ _ _) (lookupK_insertK_self _ _ _) rfl hfee
      (by simpa using by linarith), if_pos hlate]
    refine ⟨_, rfl, ?_, ?_, rfl, rfl⟩
    · rw [lookupK_insertK_self]
      rfl
    · rw [lookupK_insertK_self]
      rfl
  · intro hontime
    rw [submit_proposal_eq now _ st.proposal_counter _ _
      (lookupK_insertK_self _ _ _) (lookupK_insertK_self _ _ _) rfl hfee
      (by simpa using by linarith), if_neg hontime]
    refine ⟨_, _, rfl, lookupK_insertK_self _ _ _, rfl, rfl, ?_, rfl, rfl⟩
    rw [lookupK_insertK_self]
    rfl

/-- C4 witness: create at time 100 (submission deadline 520), then submit at
time 1000 — past the deadline, so the proposal is locked out to `Rejected`
and the fee moves to the treasury. -/
theorem submit_proposal_spec_witness :
    ∃ p1 r1, lookupK stAfterCreateSample.proposals 0 = some p1 ∧
      lookupK stAfterCreateSample.receipts 0 = some r1 ∧
      p1.status = ProposalStatus.Building ∧
      r1.status = ProposalStatus.Building ∧
      r1.fee_paid = stBaseSample.parameters.fee ∧
      p1.deadline = addMinutes 100 stBaseSample.parameters.maximum_proposal_submit_delay ∧
      ((1000 : Instant) > p1.deadline →
        ∃ st2, submit_proposal 1000 stAfterCreateSample 0 = some st2 ∧
          (lookupK st2.proposals 0).map Proposal.status =
            some ProposalStatus.Rejected ∧
          (lookupK st2.receipts 0).map ProposalReceipt.status =
            some ProposalStatus.Rejected ∧
          st2.treasury = stAfterCreateSample.treasury + r1.fee_paid ∧
          st2.proposal_fee_vault =
            stAfterCreateSample.proposal_fee_vault - r1.fee_paid) ∧
      (¬ (1000 : Instant) > p1.deadline →
        ∃ st2 p2, submit_proposal 1000 stAfterCreateSample 0 = some st2 ∧
          lookupK st2.proposals 0 = some p2 ∧
          p2.status = ProposalStatus.Ongoing ∧
          p2.deadline = addMinutes 1000 stBaseSample.parameters.proposal_duration ∧
          (lookupK st2.receipts 0).map ProposalReceipt.status =
            some ProposalStatus.Ongoing ∧
          st2.treasury = stAfterCreateSample.treasury ∧
          st2.proposal_fee_vault = stAfterCreateSample.proposal_fee_vault) :=
  submit_proposal_spec 100 1000 stBaseSample sampleStep (19999 * decScale)
    stAfterCreateSample 0 (9999 * decScale) (by decide) (by decide) (by decide)

/-- C5: the first vote cast at or after `deadline - 1 minute` on a
still-`Ongoing` proposal with `has_failed_in_last_day` unset evaluates
`votes_for > approval_threshold * (votes_for + votes_against)` with strict
inequality (a tie is failing, captured by the `≤` hypothesis): when the check
fails and the vote goes through, the proposal ends in `VetoMode` with the
deadline pushed by exactly one minute (and the flag memoized as failing);
and once in `VetoMode`, a "for" vote at or after `deadline - 1 minute`
fails. -/
theorem last_day_evaluation_spec (now : Instant) (votePower : Decimal)
    (st : GovState) (pid : Nat) (forAgainst : Bool) (voterId : NFId)
    (p : Proposal) (hp : lookupK st.proposals pid = some p) :
    ((p.status = ProposalStatus.Ongoing → p.has_failed_in_last_day = none →
      now ≥ p.deadline - 60 →
      p.votes_for ≤
        dMul st.parameters.approval_threshold (p.votes_for + p.votes_against) →
      ∀ st', vote_on_proposal now votePower st pid forAgainst voterId = some st' →
        ∃ p', lookupK st'.proposals pid = some p' ∧
          p'.status = ProposalStatus.VetoMode ∧
          p'.deadline = p.deadline + 60 ∧
          p'.has_failed_in_last_day = some true) ∧
     (p.status = ProposalStatus.VetoMode → now ≥ p.deadline - 60 →
      vote_on_proposal now votePower st pid true voterId = none)) := by
  constructor
  · intro h1 h2 h3 h4 st' hsome
    rw [vote_on_proposal_some_iff now votePower st pid forAgainst voterId p st' hp]
      at hsome
    obtain ⟨-, -, -, -, rfl⟩ := hsome
    have hLD : lastDayEval st.parameters now p =
        { p with
            has_failed_in_last_day := some true
            status := ProposalStatus.VetoMode
            deadline := addMinutes p.deadline 1 } := by
      unfold lastDayEval
      rw [if_pos ⟨by unfold addMinutes; linarith, h2, h1⟩, if_neg (not_lt.mpr h4)]
    have hq := recordVote_preserved votePower forAgainst voterId
      (lastDayEval st.parameters now p)
    have hqs : (recordVote votePower forAgainst voterId
        (lastDayEval st.parameters now p)).status = ProposalStatus.VetoMode := by
      rw [hq.2.1, hLD]
    have hRE : reEvalVeto st.parameters (recordVote votePower forAgainst voterId
        (lastDayEval st.parameters now p)) =
        recordVote votePower forAgainst voterId (lastDayEval st.parameters now p) := by
      unfold reEvalVeto
      rw [if_neg]
      rintro ⟨-, hcon, -⟩
      rw [hqs] at hcon
      exact ProposalStatus.noConfusion hcon
    rw [hRE]
    refine ⟨_, lookupK_insertK_self _ _ _, hqs, ?_, ?_⟩
    · rw [hq.1, hLD]
      show addMinutes p.deadline 1 = p.deadline + 60
      unfold addMinutes
      ring
    · rw [hq.2.2.1, hLD]
  · intro h1 h3
    cases hres : vote_on_proposal now votePower st pid true voterId with
    | none => rfl
    | some st' =>
        rw [vote_on_proposal_some_iff now votePower st pid true voterId p st' hp]
          at hres
        exact absurd ⟨h1, by unfold addMinutes; linarith, rfl⟩ hres.2.1

/-- C5 witness: at the concrete failing `Ongoing` sample (no votes in favor)
a vote cast in the final minute engages `VetoMode` and pushes the deadline
from 1000 to 1060. -/
theorem last_day_evaluation_spec_witness :
    ((pLastDaySample.status = ProposalStatus.Ongoing →
      pLastDaySample.has_failed_in_last_day = none →
      (950 : Instant) ≥ pLastDaySample.deadline - 60 →
      pLastDaySample.votes_for ≤
        dMul stLastDaySample.parameters.approval_threshold
          (pLastDaySample.votes_for + pLastDaySample.votes_against) →
      ∀ st', vote_on_proposal 950 (5 * decScale) stLastDaySample 0 false 1 =
          some st' →
        ∃ p', lookupK st'.proposals 0 = some p' ∧
          p'.status = ProposalStatus.VetoMode ∧
          p'.deadline = pLastDaySample.deadline + 60 ∧
          p'.has_failed_in_last_day = some true) ∧
     (pLastDaySample.status = ProposalStatus.VetoMode →
      (950 : Instant) ≥ pLastDaySample.deadline - 60 →
      vote_on_proposal 950 (5 * decScale) stLastDaySample 0 true 1 = none)) :=
  last_day_evaluation_spec 950 (5 * decScale) stLastDaySample 0 false 1
    pLastDaySample (by decide)

/-- C2 (counterexample): on the concrete `VetoMode` sample (last-day
evaluation already ran, `has_failed_in_last_day = some true`), an "against"
vote at time 950 is recorded, the updated tally is still failing, and yet the
deadline stays 1000 instead of being extended to 1060 — refuting the claim
that every vote recorded while veto conditions hold re-engages `VetoMode` and
extends the deadline by one minute. -/
theorem vote_in_vetomode_no_extension_cex :
    (vote_on_proposal 950 (5 * decScale) stVetoSample 0 false 1).isSome = true ∧
    (vote_on_proposal 950 (5 * decScale) stVetoSample 0 false 1).bind
        (fun s => (lookupK s.proposals 0).map
          (fun p => (p.deadline, p.has_failed_in_last_day, p.status,
            decide (p.votes_for ≤
              dMul stVetoSample.parameters.approval_threshold
                (p.votes_for + p.votes_against))))) =
      some (1000, some true, ProposalStatus.VetoMode, true) ∧
    pVetoSample.deadline = 1000 ∧
    (1000 : Int) ≠ 1000 + 60 := by
  refine ⟨?_, ?_, rfl, by decide⟩
  · rfl
  · rfl

/-- C2 (amended): after the last-day evaluation has run
(`has_failed_in_last_day` is set), a vote that is recorded while the proposal
is *still `Ongoing`* and leaves the tally failing engages `VetoMode` and
extends the deadline by exactly one minute, while a non-failing tally leaves
status and deadline unchanged; a vote recorded while the proposal is already
in `VetoMode` leaves the deadline (and status) unchanged; and no successful
vote ever shrinks the deadline. -/
theorem vote_reevaluation_spec (now : Instant) (votePower : Decimal)
    (st : GovState) (pid : Nat) (forAgainst : Bool) (voterId : NFId)
    (p : Proposal) (hp : lookupK st.proposals pid = some p)
    (hflag : p.has_failed_in_last_day.isSome = true) :
    ∀ st', vote_on_proposal now votePower st pid forAgainst voterId = some st' →
      ∃ p', lookupK st'.proposals pid = some p' ∧
        (p.status = ProposalStatus.Ongoing →
          ((p'.votes_for ≤
              dMul st.parameters.approval_threshold
                (p'.votes_for + p'.votes_against) →
            p'.status = ProposalStatus.VetoMode ∧
            p'.deadline = p.deadline + 60) ∧
           (¬ p'.votes_for ≤
              dMul st.parameters.approval_threshold
                (p'.votes_for + p'.votes_against) →
            p'.status = ProposalStatus.Ongoing ∧
            p'.deadline = p.deadline))) ∧
        (p.status = ProposalStatus.VetoMode →
          p'.deadline = p.deadline ∧ p'.status = ProposalStatus.VetoMode) ∧
        p.deadline ≤ p'.deadline := by
  intro st' hsome
  rw [vote_on_proposal_some_iff now votePower st pid forAgainst voterId p st' hp]
    at hsome
  obtain ⟨hstat, -, -, -, rfl⟩ := hsome
  have hLD : lastDayEval st.parameters now p = p := by
    unfold lastDayEval
    rw [if_neg]
    rintro ⟨-, hn, -⟩
    rw [hn] at hflag
    exact Bool.noConfusion hflag
  have hq := recordVote_preserved votePower forAgainst voterId
    (lastDayEval st.parameters now p)
  have hqflag : (recordVote votePower forAgainst voterId
      (lastDayEval st.parameters now p)).has_failed_in_last_day.isSome = true := by
    rw [hq.2.2.1, hLD]
    exact hflag
  have hqdl : (recordVote votePower forAgainst voterId
      (lastDayEval st.parameters now p)).deadline = p.deadline := by
    rw [hq.1, hLD]
  have htal := reEvalVeto_tallies st.parameters
    (recordVote votePower forAgainst voterId (lastDayEval st.parameters now p))
  rcases hstat with hOng | hVeto
  · have hqs : (recordVote votePower forAgainst voterId
        (lastDayEval st.parameters now p)).status = ProposalStatus.Ongoing := by
      rw [hq.2.1, hLD]
      exact hOng
    by_cases hfail : (recordVote votePower forAgainst voterId
        (lastDayEval st.parameters now p)).votes_for ≤
        dMul st.parameters.approval_threshold
          ((recordVote votePower forAgainst voterId
            (lastDayEval st.parameters now p)).votes_for +
           (recordVote votePower forAgainst voterId
            (lastDayEval st.parameters now p)).votes_against)
    · have hRE : reEvalVeto st.parameters (recordVote votePower forAgainst voterId
          (lastDayEval st.parameters now p)) =
          { recordVote votePower forAgainst voterId (lastDayEval st.parameters now p) with
              has_failed_in_last_day := some true
              deadline := addMinutes (recordVote votePower forAgainst voterId
                (lastDayEval st.parameters now p)).deadline 1
              status := ProposalStatus.VetoMode } := by
        unfold reEvalVeto
        rw [if_pos ⟨hqflag, hqs, hfail⟩]
      rw [hRE]
      refine ⟨_, lookupK_insertK_self _ _ _, ?_, ?_, ?_⟩
      · intro _
        constructor
        · intro _
          refine ⟨rfl, ?_⟩
          show addMinutes (recordVote votePower forAgainst voterId
            (lastDayEval st.parameters now p)).deadline 1 = p.deadline + 60
          rw [hqdl]
          unfold addMinutes
          ring
        · intro hcon
          exact absurd hfail hcon
      · intro hcon
        rw [hOng] at hcon
        exact absurd hcon (fun hcon2 => ProposalStatus.noConfusion hcon2)
      · show p.deadline ≤ addMinutes (recordVote votePower forAgainst voterId
          (lastDayEval st.parameters now p)).deadline 1
        rw [hqdl]
        unfold addMinutes
        linarith
    · have hRE : reEvalVeto st.parameters (recordVote votePower forAgainst voterId
          (lastDayEval st.parameters now p)) =
          recordVote votePower forAgainst voterId (lastDayEval st.parameters now p) := by
        unfold reEvalVeto
        rw [if_neg]
        rintro ⟨-, -, hcon⟩
        exact absurd hcon hfail
      rw [hRE]
      refine ⟨_, lookupK_insertK_self _ _ _, ?_, ?_, ?_⟩
      · intro _
        constructor
        · intro hcon
          exact absurd hcon hfail
        · intro _
          exact ⟨hqs, hqdl⟩
      · intro hcon
        rw [hOng] at hcon
        exact absurd hcon (fun hcon2 => ProposalStatus.noConfusion hcon2)
      · rw [hqdl]
  · have hqs : (recordVote votePower forAgainst voterId
        (lastDayEval st.parameters now p)).status = ProposalStatus.VetoMode := by
      rw [hq.2.1, hLD]
      exact hVeto
    have hRE : reEvalVeto st.parameters (recordVote votePower forAgainst voterId
        (lastDayEval st.parameters now p)) =
        recordVote votePower forAgainst voterId (lastDayEval st.parameters now p) := by
      unfold reEvalVeto
      rw [if_neg]
      rintro ⟨-, hcon, -⟩
      rw [hqs] at hcon
      exact ProposalStatus.noConfusion hcon
    rw [hRE]
    refine ⟨_, lookupK_insertK_self _ _ _, ?_, ?_, ?_⟩
    · intro hcon
      rw [hVeto] at hcon
      exact absurd hcon (fun hcon2 => ProposalStatus.noConfusion hcon2)
    · intro _
      exact ⟨hqdl, hqs⟩
    · rw [hqdl]

/-- C2 (witness for the amended theorem): on the concrete passing-flagged
`Ongoing` sample, an against-vote that flips the tally to failing engages
`VetoMode` and pushes the deadline from 1000 to 1060. -/
theorem vote_reevaluation_spec_witness :
    ∃ p', lookupK stFlaggedAfterSample.proposals 0 = some p' ∧
      (pFlaggedSample.status = ProposalStatus.Ongoing →
        ((p'.votes_for ≤
            dMul stFlaggedSample.parameters.approval_threshold
              (p'.votes_for + p'.votes_against) →
          p'.status = ProposalStatus.VetoMode ∧
          p'.deadline = pFlaggedSample.deadline + 60) ∧
         (¬ p'.votes_for ≤
            dMul stFlaggedSample.parameters.approval_threshold
              (p'.votes_for + p'.votes_against) →
          p'.status = ProposalStatus.Ongoing ∧
          p'.deadline = pFlaggedSample.deadline))) ∧
      (pFlaggedSample.status = ProposalStatus.VetoMode →
        p'.deadline = pFlaggedSample.deadline ∧
        p'.status = ProposalStatus.VetoMode) ∧
      pFlaggedSample.deadline ≤ p'.deadline :=
  vote_reevaluation_spec 950 (20 * decScale) stFlaggedSample 0 false 1
    pFlaggedSample (by decide) (by decide) stFlaggedAfterSample (by decide)

/-- C9: a voting identity that already has a recorded vote on a proposal
cannot vote again — the call fails (and hence changes no state) regardless of
the direction of either vote; and a successful vote by a fresh identity keeps
the voter identities in `votes` distinct (at most one entry per identity) and
records the voter's entry. -/
theorem double_vote_rejected (now : Instant) (votePower : Decimal)
    (st : GovState) (pid : Nat) (forAgainst : Bool) (voterId : NFId)
    (p : Proposal) (hp : lookupK st.proposals pid = some p) :
    ((lookupK p.votes voterId).isSome = true →
      ∀ fa : Bool, vote_on_proposal now votePower st pid fa voterId = none) ∧
    ((p.votes.map Prod.fst).Nodup →
      ∀ st', vote_on_proposal now votePower st pid forAgainst voterId = some st' →
        ∀ p', lookupK st'.proposals pid = some p' →
          (p'.votes.map Prod.fst).Nodup ∧
          (lookupK p'.votes voterId).isSome = true) := by
  constructor
  · intro hv fa
    cases hres : vote_on_proposal now votePower st pid fa voterId with
    | none => rfl
    | some st' =>
        rw [vote_on_proposal_some_iff now votePower st pid fa voterId p st' hp,
          lastDayEval_votes] at hres
        exact absurd (hv.symm.trans hres.2.2.1) (by decide)
  · intro hnd st' hsome p' hp'
    rw [vote_on_proposal_some_iff now votePower st pid forAgainst voterId p st' hp]
      at hsome
    obtain ⟨-, -, hfresh, -, rfl⟩ := hsome
    rw [lastDayEval_votes] at hfresh
    simp only [lookupK_insertK_self] at hp'
    obtain rfl := Option.some.inj hp'
    constructor
    · rw [reEvalVeto_votes, recordVote_votes, lastDayEval_votes]
      simp only [List.map_cons, List.nodup_cons]
      refine ⟨?_, hnd⟩
      intro hmem
      have hsomeV := lookupK_isSome_of_mem p.votes voterId hmem
      rw [hsomeV] at hfresh
      exact absurd hfresh (by decide)
    · rw [reEvalVeto_votes, recordVote_votes]
      simp [lookupK]

/-- Characterization of `finish_voting` under its preconditions: the status
is mirrored onto the receipt, and rejection moves the bonded fee from the fee
vault to the treasury. -/
theorem finish_voting_eq (now : Instant) (mult : Decimal) (st : GovState)
    (pid : Nat) (p : Proposal) (r : ProposalReceipt)
    (hp : lookupK st.proposals pid = some p)
    (hr : lookupK st.receipts pid = some r)
    (hdl : now ≥ p.deadline)
    (hstat : p.status = ProposalStatus.Ongoing ∨ p.status = ProposalStatus.VetoMode)
    (hfee0 : 0 ≤ r.fee_paid) (hfee1 : r.fee_paid ≤ st.proposal_fee_vault) :
    finish_voting now mult st pid = some (
      if dMul p.votes_for mult >
           dMul st.parameters.approval_threshold
             (dMul p.votes_against mult + dMul p.votes_for mult) ∧
         dMul p.votes_against mult + dMul p.votes_for mult ≥ st.parameters.quorum then
        { st with
            proposals := insertK st.proposals pid
              { p with status := ProposalStatus.Accepted }
            receipts := insertK st.receipts pid
              { r with status := ProposalStatus.Accepted } }
      else
        { st with
            proposals := insertK st.proposals pid
              { p with status := ProposalStatus.Rejected }
            receipts := insertK st.receipts pid
              { r with status := ProposalStatus.Rejected }
            proposal_fee_vault := st.proposal_fee_vault - r.fee_paid
            treasury := st.treasury + r.fee_paid }) := by
  simp only [finish_voting, hp, hr, bind, Option.bind, vaultTake]
  rw [if_pos hdl, if_pos hstat]
  split
  · rfl
  · rw [if_pos ⟨hfee0, hfee1⟩]

/-- C1: for a proposal with status `Ongoing` or `VetoMode`, `finish_voting`
succeeds only when `now ≥ deadline`; when it runs, the status becomes
`Accepted` iff the real-valued favor tally (`votes_for` times the oracle
multiplier) strictly exceeds `approval_threshold` times the real-valued total
and the real-valued total meets the quorum; otherwise the status becomes
`Rejected` and the bonded fee moves from the fee vault to the treasury — in
particular a real-valued total below the quorum is rejected even if every
vote is in favor. -/
theorem finish_voting_spec (now : Instant) (mult : Decimal) (st : GovState)
    (pid : Nat) (p : Proposal) (r : ProposalReceipt)
    (hp : lookupK st.proposals pid = some p)
    (hr : lookupK st.receipts pid = some r)
    (hstat : p.status = ProposalStatus.Ongoing ∨ p.status = ProposalStatus.VetoMode)
    (hfee0 : 0 ≤ r.fee_paid) (hfee1 : r.fee_paid ≤ st.proposal_fee_vault) :
    (∀ st', finish_voting now mult st pid = some st' → now ≥ p.deadline) ∧
    (now ≥ p.deadline →
      ∃ st' p', finish_voting now mult st pid = some st' ∧
        lookupK st'.proposals pid = some p' ∧
        (p'.status = ProposalStatus.Accepted ↔
          (dMul p.votes_for mult >
             dMul st.parameters.approval_threshold
               (dMul p.votes_against mult + dMul p.votes_for mult) ∧
           dMul p.votes_against mult + dMul p.votes_for mult ≥
             st.parameters.quorum)) ∧
        (p'.status ≠ ProposalStatus.Accepted →
          p'.status = ProposalStatus.Rejected ∧
          st'.treasury = st.treasury + r.fee_paid ∧
          st'.proposal_fee_vault = st.proposal_fee_vault - r.fee_paid) ∧
        (p'.status = ProposalStatus.Accepted →
          st'.treasury = st.treasury ∧
          st'.proposal_fee_vault = st.proposal_fee_vault) ∧
        (dMul p.votes_against mult + dMul p.votes_for mult < st.parameters.quorum →
          p'.status = ProposalStatus.Rejected)) := by
  constructor
  · intro st' h
    by_contra hno
    simp [finish_voting, hp, bind, Option.bind, hno] at h
  · intro hdl
    rw [finish_voting_eq now mult st pid p r hp hr hdl hstat hfee0 hfee1]
    by_cases hacc : dMul p.votes_for mult >
        dMul st.parameters.approval_threshold
          (dMul p.votes_against mult + dMul p.votes_for mult) ∧
        dMul p.votes_against mult + dMul p.votes_for mult ≥ st.parameters.quorum
    · rw [if_pos hacc]
      refine ⟨_, _, rfl, lookupK_insertK_self _ _ _, ?_, ?_, ?_, ?_⟩
      · exact iff_of_true rfl hacc
      · intro hne
        exact absurd rfl hne
      · intro _
        exact ⟨rfl, rfl⟩
      · intro hq
        exact absurd hacc.2 (not_le.mpr hq)
    · rw [if_neg hacc]
      refine ⟨_, _, rfl, lookupK_insertK_self _ _ _, ?_, ?_, ?_, ?_⟩
      · exact iff_of_false (fun hcon => ProposalStatus.noConfusion hcon) hacc
      · intro _
        exact ⟨rfl, rfl, rfl⟩
      · intro hcon
        exact absurd hcon (fun hcon2 => ProposalStatus.noConfusion hcon2)
      · intro _
        rfl

/-- C1 witness: the concrete sample — one 5-unit vote in favor, quorum 10000,
multiplier 1.0 — is rejected at the deadline (quorum gate), with the fee
refunded to the treasury. -/
theorem finish_voting_spec_witness :
    (∀ st', finish_voting 1000 decScale stOngSample 0 = some st' →
      (1000 : Instant) ≥ pOngSample.deadline) ∧
    ((1000 : Instant) ≥ pOngSample.deadline →
      ∃ st' p', finish_voting 1000 decScale stOngSample 0 = some st' ∧
        lookupK st'.proposals 0 = some p' ∧
        (p'.status = ProposalStatus.Accepted ↔
          (dMul pOngSample.votes_for decScale >
             dMul stOngSample.parameters.approval_threshold
               (dMul pOngSample.votes_against decScale +
                dMul pOngSample.votes_for decScale) ∧
           dMul pOngSample.votes_against decScale +
             dMul pOngSample.votes_for decScale ≥
             stOngSample.parameters.quorum)) ∧
        (p'.status ≠ ProposalStatus.Accepted →
          p'.status = ProposalStatus.Rejected ∧
          st'.treasury = stOngSample.treasury + rOngSample.fee_paid ∧
          st'.proposal_fee_vault =
            stOngSample.proposal_fee_vault - rOngSample.fee_paid) ∧
        (p'.status = ProposalStatus.Accepted →
          st'.treasury = stOngSample.treasury ∧
          st'.proposal_fee_vault = stOngSample.proposal_fee_vault) ∧
        (dMul pOngSample.votes_against decScale +
           dMul pOngSample.votes_for decScale < stOngSample.parameters.quorum →
          p'.status = ProposalStatus.Rejected)) :=
  finish_voting_spec 1000 decScale stOngSample 0 pOngSample rOngSample
    (by decide) (by decide) (Or.inl (by decide)) (by decide) (by decide)

/-! ### Success-shape lemmas: how each operation rewrites the proposal store -/

theorem vote_some_shape (now : Instant) (vp : Decimal) (st : GovState)
    (pid0 : Nat) (fa : Bool) (id : NFId) (st' : GovState)
    (h : vote_on_proposal now vp st pid0 fa id = some st') :
    ∃ p0 q, lookupK st.proposals pid0 = some p0 ∧
      st'.proposals = insertK st.proposals pid0 q ∧
      q.reentrancy = p0.reentrancy ∧ q.next_index = p0.next_index := by
  cases hq : lookupK st.proposals pid0 with
  | none => simp [vote_on_proposal, hq, bind, Option.bind] at h
  | some p0 =>
      rw [vote_on_proposal_some_iff now vp st pid0 fa id p0 st' hq] at h
      obtain ⟨-, -, -, -, rfl⟩ := h
      refine ⟨p0, _, rfl, rfl, ?_, ?_⟩
      · rw [reEvalVeto_reentrancy,
          (recordVote_preserved vp fa id _).2.2.2.1, lastDayEval_reentrancy]
      · rw [reEvalVeto_next_index,
          (recordVote_preserved vp fa id _).2.2.2.2, lastDayEval_next_index]

theorem submit_some_shape (now : Instant) (st : GovState) (pid0 : Nat)
    (st' : GovState) (h : submit_proposal now st pid0 = some st') :
    ∃ p0 q, lookupK st.proposals pid0 = some p0 ∧
      st'.proposals = insertK st.proposals pid0 q ∧
      q.reentrancy = p0.reentrancy ∧ q.next_index = p0.next_index := by
  cases hr0 : lookupK st.receipts pid0 with
  | none => simp [submit_proposal, hr0, bind, Option.bind] at h
  | some r0 =>
      cases hp0 : lookupK st.proposals pid0 with
      | none => simp [submit_proposal, hr0, hp0, bind, Option.bind] at h
      | some p0 =>
          simp only [submit_proposal, hr0, hp0, bind, Option.bind, vaultTake] at h
          split_ifs at h
          all_goals
            obtain rfl := (Option.some.inj h).symm
          all_goals exact ⟨p0, _, rfl, rfl, rfl, rfl⟩

theorem finish_voting_some_shape (now : Instant) (mult : Decimal)
    (st : GovState) (pid0 : Nat) (st' : GovState)
    (h : finish_voting now mult st pid0 = some st') :
    ∃ p0 q, lookupK st.proposals pid0 = some p0 ∧
      st'.proposals = insertK st.proposals pid0 q ∧
      q.reentrancy = p0.reentrancy ∧ q.next_index = p0.next_index := by
  cases hp0 : lookupK st.proposals pid0 with
  | none => simp [finish_voting, hp0, bind, Option.bind] at h
  | some p0 =>
      cases hr0 : lookupK st.receipts pid0 with
      | none =>
          simp only [finish_voting, hp0, hr0, bind, Option.bind] at h
          split_ifs at h
      | some r0 =>
          simp only [finish_voting, hp0, hr0, bind, Option.bind, vaultTake] at h
          split_ifs at h
          all_goals
            obtain rfl := (Option.some.inj h).symm
          all_goals exact ⟨p0, _, rfl, rfl, rfl, rfl⟩

theorem execute_pending_none (st : GovState) (pid : Nat) (n : Int)
    (p : Proposal) (hp : lookupK st.proposals pid = some p)
    (hre : p.reentrancy = true) :
    execute_proposal_step st pid n = none := by
  simp only [execute_proposal_step, hp, bind, Option.bind]
  split_ifs with h1 h2
  · simp [hre] at h2
  · rfl
  · rfl

theorem execute_some_shape (st : GovState) (pid0 : Nat) (n : Int)
    (out : GovState × List ExtCall)
    (h : execute_proposal_step st pid0 n = some out) :
    ∃ p0 q, lookupK st.proposals pid0 = some p0 ∧
      out.1.proposals = insertK st.proposals pid0 q := by
  cases hp0 : lookupK st.proposals pid0 with
  | none => simp [execute_proposal_step, hp0, bind, Option.bind] at h
  | some p0 =>
      cases hloop : execLoop st.component_address p0.steps pid0 n.toNat
          p0.next_index with
      | none => simp [execute_proposal_step, hp0, hloop, bind, Option.bind] at h
      | some tr =>
          obtain ⟨idx, reent, calls⟩ := tr
          cases hr0 : lookupK st.receipts pid0 with
          | none =>
              simp only [execute_proposal_step, hp0, hloop, hr0, bind,
                Option.bind] at h
              split_ifs at h
              all_goals
                obtain rfl := (Option.some.inj h).symm
              all_goals exact ⟨p0, _, rfl, rfl⟩
          | some r0 =>
              simp only [execute_proposal_step, hp0, hloop, hr0, bind,
                Option.bind] at h
              split_ifs at h
              all_goals
                obtain rfl := (Option.some.inj h).symm
              all_goals exact ⟨p0, _, rfl, rfl⟩

theorem finish_reentrancy_some_shape (st : GovState) (pid0 : Nat)
    (st' : GovState) (h : finish_reentrancy_step st pid0 = some st') :
    ∃ p0 q, lookupK st.proposals pid0 = some p0 ∧
      st'.proposals = insertK st.proposals pid0 q ∧
      q.reentrancy = false ∧ q.next_index = p0.next_index + 1 := by
  cases hp0 : lookupK st.proposals pid0 with
  | none => simp [finish_reentrancy_step, hp0, bind, Option.bind] at h
  | some p0 =>
      simp only [finish_reentrancy_step, hp0, bind, Option.bind] at h
      split_ifs at h with h1
      · cases hr0 : lookupK st.receipts pid0 with
        | none => rw [hr0] at h; exact absurd h (by simp)
        | some r0 =>
            rw [hr0] at h
            simp only [Option.bind] at h
            obtain rfl := (Option.some.inj h).symm
            exact ⟨p0, _, rfl, rfl, rfl, rfl⟩
      · obtain rfl := (Option.some.inj h).symm
        exact ⟨p0, _, rfl, rfl, rfl, rfl⟩

theorem retrieve_some_proposals (st : GovState) (pid0 : Nat)
    (out : GovState × Decimal) (h : retrieve_fee st pid0 = some out) :
    out.1.proposals = st.proposals := by
  cases hr0 : lookupK st.receipts pid0 with
  | none => simp [retrieve_fee, hr0, bind, Option.bind] at h
  | some r0 =>
      simp only [retrieve_fee, hr0, bind, Option.bind, vaultTake] at h
      split_ifs at h
      all_goals
        obtain rfl := (Option.some.inj h).symm
      all_goals rfl

theorem hurry_some_shape (now : Instant) (st : GovState) (pid0 : Nat)
    (d : Int) (st' : GovState) (h : hurry_proposal now st pid0 d = some st') :
    ∃ p0 q, lookupK st.proposals pid0 = some p0 ∧
      st'.proposals = insertK st.proposals pid0 q ∧
      q.reentrancy = p0.reentrancy ∧ q.next_index = p0.next_index := by
  cases hp0 : lookupK st.proposals pid0 with
  | none => simp [hurry_proposal, hp0, bind, Option.bind] at h
  | some p0 =>
      simp only [hurry_proposal, hp0, bind, Option.bind] at h
      split_ifs at h
      all_goals
        obtain rfl := (Option.some.inj h).symm
      all_goals exact ⟨p0, _, rfl, rfl, rfl, rfl⟩

theorem addStep_some_shape (st : GovState) (pid0 : Nat) (step : ProposalStep)
    (st' : GovState) (h : add_proposal_step st pid0 step = some st') :
    ∃ p0 q, lookupK st.proposals pid0 = some p0 ∧
      st'.proposals = insertK st.proposals pid0 q ∧
      q.reentrancy = p0.reentrancy ∧ q.next_index = p0.next_index := by
  cases hr0 : lookupK st.receipts pid0 with
  | none => simp [add_proposal_step, hr0, bind, Option.bind] at h
  | some r0 =>
      cases hp0 : lookupK st.proposals pid0 with
      | none => simp [add_proposal_step, hr0, hp0, bind, Option.bind] at h
      | some p0 =>
          simp only [add_proposal_step, hr0, hp0, bind, Option.bind] at h
          split_ifs at h
          all_goals
            obtain rfl := (Option.some.inj h).symm
          all_goals exact ⟨p0, _, rfl, rfl, rfl, rfl⟩

/-- C6: while a deferred call is pending (`reentrancy = true`),
`execute_proposal_step` fails with no state change; and among all the
proposal-handling operations, only `finish_reentrancy_step` on that proposal
clears the flag — and it advances `next_index` by exactly one — while every
other operation that succeeds leaves both the flag and the cursor of the
pending proposal untouched. -/
theorem reentrancy_gate_spec (op : GovOp) (st : GovState) (pid : Nat)
    (p : Proposal) (hp : lookupK st.proposals pid = some p)
    (hre : p.reentrancy = true) :
    (∀ n, execute_proposal_step st pid n = none) ∧
    (∀ st', op.apply st = some st' →
      ∀ p', lookupK st'.proposals pid = some p' →
        (op = GovOp.finishReentrancy pid →
          p'.reentrancy = false ∧ p'.next_index = p.next_index + 1) ∧
        (op ≠ GovOp.finishReentrancy pid →
          p'.reentrancy = true ∧ p'.next_index = p.next_index)) := by
  refine ⟨fun n => execute_pending_none st pid n p hp hre, ?_⟩
  intro st' hap p' hp'
  cases op with
  | vote now vp pid0 fa id =>
      obtain ⟨p0, q, hp0, hpr, hqre, hqni⟩ :=
        vote_some_shape now vp st pid0 fa id st' hap
      rw [hpr] at hp'
      refine ⟨fun hcon => GovOp.noConfusion hcon, fun _ => ?_⟩
      rcases lookupK_insertK_cases _ _ _ _ _ hp' with ⟨rfl, rfl⟩ | ⟨-, hlk⟩
      · have hpp : p = p0 := Option.some.inj (hp.symm.trans hp0)
        rw [hqre, hqni, ← hpp]
        exact ⟨hre, rfl⟩
      · obtain rfl := Option.some.inj (hp.symm.trans hlk)
        exact ⟨hre, rfl⟩
  | submit now pid0 =>
      obtain ⟨p0, q, hp0, hpr, hqre, hqni⟩ := submit_some_shape now st pid0 st' hap
      rw [hpr] at hp'
      refine ⟨fun hcon => GovOp.noConfusion hcon, fun _ => ?_⟩
      rcases lookupK_insertK_cases _ _ _ _ _ hp' with ⟨rfl, rfl⟩ | ⟨-, hlk⟩
      · have hpp : p = p0 := Option.some.inj (hp.symm.trans hp0)
        rw [hqre, hqni, ← hpp]
        exact ⟨hre, rfl⟩
      · obtain rfl := Option.some.inj (hp.symm.trans hlk)
        exact ⟨hre, rfl⟩
  | finishVoting now mult pid0 =>
      obtain ⟨p0, q, hp0, hpr, hqre, hqni⟩ :=
        finish_voting_some_shape now mult st pid0 st' hap
      rw [hpr] at hp'
      refine ⟨fun hcon => GovOp.noConfusion hcon, fun _ => ?_⟩
      rcases lookupK_insertK_cases _ _ _ _ _ hp' with ⟨rfl, rfl⟩ | ⟨-, hlk⟩
      · have hpp : p = p0 := Option.some.inj (hp.symm.trans hp0)
        rw [hqre, hqni, ← hpp]
        exact ⟨hre, rfl⟩
      · obtain rfl := Option.some.inj (hp.symm.trans hlk)
        exact ⟨hre, rfl⟩
  | execStep pid0 n =>
      refine ⟨fun hcon => GovOp.noConfusion hcon, fun _ => ?_⟩
      by_cases hpe : pid0 = pid
      · subst hpe
        rw [GovOp.apply, execute_pending_none st pid0 n p hp hre] at hap
        exact absurd hap (by simp)
      · cases hout : execute_proposal_step st pid0 n with
        | none => rw [GovOp.apply, hout] at hap; exact absurd hap (by simp)
        | some out =>
            rw [GovOp.apply, hout] at hap
            obtain rfl : out.1 = st' := by simpa using hap
            obtain ⟨p0, q, hp0, hpr⟩ := execute_some_shape st pid0 n out hout
            rw [hpr, lookupK_insertK_ne _ _ _ _ (fun hcc => hpe hcc.symm)] at hp'
            obtain rfl := Option.some.inj (hp.symm.trans hp')
            exact ⟨hre, rfl⟩
  | finishReentrancy pid0 =>
      by_cases hpe : pid0 = pid
      · subst hpe
        obtain ⟨p0, q, hp0, hpr, hq1, hq2⟩ :=
          finish_reentrancy_some_shape st pid0 st' hap
        rw [hpr] at hp'
        have hpp : p = p0 := Option.some.inj (hp.symm.trans hp0)
        refine ⟨fun _ => ?_, fun hcon => absurd rfl hcon⟩
        rcases lookupK_insertK_cases _ _ _ _ _ hp' with ⟨-, rfl⟩ | ⟨hne, -⟩
        · rw [hq1, hq2, ← hpp]
          exact ⟨rfl, rfl⟩
        · exact absurd rfl hne
      · obtain ⟨p0, q, hp0, hpr, hq1, hq2⟩ :=
          finish_reentrancy_some_shape st pid0 st' hap
        rw [hpr, lookupK_insertK_ne _ _ _ _ (fun hcc => hpe hcc.symm)] at hp'
        obtain rfl := Option.some.inj (hp.symm.trans hp')
        refine ⟨fun hcon => ?_, fun _ => ⟨hre, rfl⟩⟩
        injection hcon with hcc
        exact absurd hcc hpe
  | retrieveFee pid0 =>
      refine ⟨fun hcon => GovOp.noConfusion hcon, fun _ => ?_⟩
      cases hout : retrieve_fee st pid0 with
      | none => rw [GovOp.apply, hout] at hap; exact absurd hap (by simp)
      | some out =>
          rw [GovOp.apply, hout] at hap
          obtain rfl : out.1 = st' := by simpa using hap
          rw [retrieve_some_proposals st pid0 out hout] at hp'
          obtain rfl := Option.some.inj (hp.symm.trans hp')
          exact ⟨hre, rfl⟩
  | hurry now pid0 d =>
      obtain ⟨p0, q, hp0, hpr, hqre, hqni⟩ := hurry_some_shape now st pid0 d st' hap
      rw [hpr] at hp'
      refine ⟨fun hcon => GovOp.noConfusion hcon, fun _ => ?_⟩
      rcases lookupK_insertK_cases _ _ _ _ _ hp' with ⟨rfl, rfl⟩ | ⟨-, hlk⟩
      · have hpp : p = p0 := Option.some.inj (hp.symm.trans hp0)
        rw [hqre, hqni, ← hpp]
        exact ⟨hre, rfl⟩
      · obtain rfl := Option.some.inj (hp.symm.trans hlk)
        exact ⟨hre, rfl⟩
  | addStep pid0 step =>
      obtain ⟨p0, q, hp0, hpr, hqre, hqni⟩ := addStep_some_shape st pid0 step st' hap
      rw [hpr] at hp'
      refine ⟨fun hcon => GovOp.noConfusion hcon, fun _ => ?_⟩
      rcases lookupK_insertK_cases _ _ _ _ _ hp' with ⟨rfl, rfl⟩ | ⟨-, hlk⟩
      · have hpp : p = p0 := Option.some.inj (hp.symm.trans hp0)
        rw [hqre, hqni, ← hpp]
        exact ⟨hre, rfl⟩
      · obtain rfl := Option.some.inj (hp.symm.trans hlk)
        exact ⟨hre, rfl⟩

/-- C6 witness: on the concrete pending sample, every `execute_proposal_step`
fails, and the completing `finish_reentrancy_step` clears the flag and moves
the cursor from 1 to 2. -/
theorem reentrancy_gate_spec_witness :
    (∀ n, execute_proposal_step stPendingSample 0 n = none) ∧
    (∀ st', (GovOp.finishReentrancy 0).apply stPendingSample = some st' →
      ∀ p', lookupK st'.proposals 0 = some p' →
        (GovOp.finishReentrancy 0 = GovOp.finishReentrancy 0 →
          p'.reentrancy = false ∧ p'.next_index = pPendingSample.next_index + 1) ∧
        (GovOp.finishReentrancy 0 ≠ GovOp.finishReentrancy 0 →
          p'.reentrancy = true ∧ p'.next_index = pPendingSample.next_index)) :=
  reentrancy_gate_spec (GovOp.finishReentrancy 0) stPendingSample 0
    pPendingSample (by decide) (by decide)

/-! ### The execution loop on reentrancy-free step suffixes -/

theorem asUsize_coe (n : Nat) (h : n < 2 ^ 64) : asUsize (n : Int) = n := by
  unfold asUsize
  rw [Int.emod_eq_of_lt (Int.natCast_nonneg n) (by exact_mod_cast h)]
  exact Int.toNat_natCast n

theorem execLoop_no_defer (selfAddr : Addr) (steps : List ProposalStep)
    (pid : Nat) (hlen : steps.length < 2 ^ 64) :
    ∀ fuel i, i < steps.length → steps.length ≤ i + fuel →
      (∀ s ∈ steps.drop i, s.component ≠ selfAddr ∧ s.reentrancy = false) →
      execLoop selfAddr steps pid fuel (i : Int) =
        some ((steps.length : Int), false,
          (steps.drop i).map
            (fun s => ExtCall.dispatch s.component s.method s.args)) := by
  intro fuel
  induction fuel with
  | zero => intro i hi hle _; omega
  | succ fuel ih =>
      intro i hi hle hclean
      have hdrop : steps.drop i = steps[i] :: steps.drop (i + 1) :=
        List.drop_eq_getElem_cons hi
      have hstep := hclean steps[i] (by rw [hdrop]; exact List.mem_cons_self _ _)
      have hcast : (i : Int) + 1 = ((i + 1 : Nat) : Int) := by push_cast; ring
      simp only [execLoop, asUsize_coe i (lt_trans hi hlen),
        List.getElem?_eq_getElem hi, hcast, asUsize_coe (i + 1) (by omega)]
      rw [if_neg (by
        rintro (hcomp | hflag)
        · exact hstep.1 hcomp
        · rw [hstep.2] at hflag
          exact Bool.noConfusion hflag)]
      by_cases hend : i + 1 = steps.length
      · rw [if_pos hend, hdrop]
        have hnil : steps.drop (i + 1) = [] :=
          List.drop_eq_nil_of_le (le_of_eq hend.symm)
        rw [hnil]
        simp only [List.map_cons, List.map_nil]
        rw [hend]
      · rw [if_neg hend]
        have hi1 : i + 1 < steps.length := by omega
        rw [ih (i + 1) hi1 (by omega) (fun s hs => hclean s (by
          rw [hdrop]
          exact List.mem_cons_of_mem _ hs))]
        rw [hdrop]
        simp only [List.map_cons]

/-- C7: for an `Accepted` proposal with no pending deferred call whose
remaining steps are all plain (no step targets the governance component and
none is reentrancy-flagged), calling `execute_proposal_step` with a step
budget at least the number of remaining steps succeeds, dispatches exactly
the remaining steps in order, moves the cursor exactly to `steps.len()`
(never past it — an out-of-range access would return `none`), and sets the
status to `Executed`: overshoot is clamped silently, not an error. -/
theorem execute_overshoot_clamps (st : GovState) (pid : Nat) (p : Proposal)
    (r : ProposalReceipt) (i : Nat) (n : Int)
    (hp : lookupK st.proposals pid = some p)
    (hr : lookupK st.receipts pid = some r)
    (hstat : p.status = ProposalStatus.Accepted)
    (hreent : p.reentrancy = false)
    (hidx : p.next_index = (i : Int))
    (hi : i < p.steps.length)
    (hlen : p.steps.length < 2 ^ 64)
    (hclean : ∀ s ∈ p.steps.drop i,
      s.component ≠ st.component_address ∧ s.reentrancy = false)
    (hn : (p.steps.length : Int) - (i : Int) ≤ n) :
    execute_proposal_step st pid n =
      some ({ st with
                proposals := insertK st.proposals pid
                  { p with
                      next_index := (p.steps.length : Int)
                      status := ProposalStatus.Executed }
                receipts := insertK st.receipts pid
                  { r with status := ProposalStatus.Executed } },
            (p.steps.drop i).map
              (fun s => ExtCall.dispatch s.component s.method s.args)) := by
  have hfuel : p.steps.length ≤ i + n.toNat := by omega
  have hloop := execLoop_no_defer st.component_address p.steps pid hlen n.toNat
    i hi hfuel hclean
  simp only [execute_proposal_step, hp, hr, bind, Option.bind, hstat, hreent,
    hidx, hloop, if_true, ite_true]
  rw [if_neg (fun hcon => Bool.noConfusion hcon),
    if_pos (asUsize_coe p.steps.length hlen)]

/-- C7 witness: on the concrete `Accepted` two-step sample, a budget of 3
executes both steps, reaches cursor 2 and status `Executed` without error. -/
theorem execute_overshoot_clamps_witness :
    execute_proposal_step stAccSample 0 3 =
      some ({ stAccSample with
                proposals := insertK stAccSample.proposals 0
                  { pAccSample with
                      next_index := (pAccSample.steps.length : Int)
                      status := ProposalStatus.Executed }
                receipts := insertK stAccSample.receipts 0
                  { rAccSample with status := ProposalStatus.Executed } },
            (pAccSample.steps.drop 0).map
              (fun s => ExtCall.dispatch s.component s.method s.args)) :=
  execute_overshoot_clamps stAccSample 0 pAccSample rAccSample 0 3
    (by decide) (by decide) (by decide) (by decide) (by decide) (by decide)
    (by decide) (by decide) (by decide)

/-- C9 witness: voter 7 has a recorded vote on the concrete sample proposal,
and any second vote by 7 (either direction) fails. -/
theorem double_vote_rejected_witness :
    ((lookupK pOngSample.votes 7).isSome = true →
      ∀ fa : Bool, vote_on_proposal 500 decScale stOngSample 0 fa 7 = none) ∧
    ((pOngSample.votes.map Prod.fst).Nodup →
      ∀ st', vote_on_proposal 500 decScale stOngSample 0 true 7 = some st' →
        ∀ p', lookupK st'.proposals 0 = some p' →
          (p'.votes.map Prod.fst).Nodup ∧
          (lookupK p'.votes 7).isSome = true) :=
  double_vote_rejected 500 decScale stOngSample 0 true 7 pOngSample (by decide)

end DAOgov
